import Mathlib

/-!
A shallow embedding of the process supervisor implemented in
`src/unnamed/part_000` of deepstream.io-service, together with a model of
the option merging performed by `module.exports.start` and of the
byte-level behaviour of the stdout/stderr forwarding handlers.

The closure variables of `start` (`startTime`, `attempts`, `starts`,
`child`, `wait`) become the fields of `SupState`.  The event loop is made
explicit: a `Cfg` carries the supervisor state plus the pending timers,
the termination status of the supervisor process, and ghost bookkeeping
(number of launches, number of relaunches, the list of scheduled relaunch
delays, the log of `console.error` messages).  `step` consumes one event
(a child exit or a timer firing); `run` folds `step` over an event list.
Times are integer millisecond timestamps; JS numbers holding delay values
are modelled as rationals.
-/

namespace DeepstreamService

/-- The options record consumed by `start`.  `maxRestarts` has no entry in
the defaults object of `module.exports.start`, so a caller may leave it
absent (JS `undefined`); we model that with `Option`.  In JS,
`attempts > undefined` and `undefined >= 0` are both false, which the
model reproduces in `capExceeded`. -/
structure Options where
  name : String
  exitOnError : Bool
  growPercentage : ℚ
  maxRetries : ℤ
  maxRestarts : Option ℤ
  restartDelay : ℚ
deriving DecidableEq

/-- Source: `const max = 6`.  The rate-limit window is `max * 1000` ms. -/
def max : ℕ := 6

/-- The mutable closure state of `start`: `startTime` (window start, or
null), `attempts` (total restart attempts), `starts` (launches in the
current window), `childLive` (whether `child.pid` is present), and `wait`
(the current relaunch delay, initially the literal `1`). -/
structure SupState where
  startTime : Option ℤ
  attempts : ℕ
  starts : ℕ
  childLive : Bool
  wait : ℚ
deriving DecidableEq

/-- A supervisor configuration: the closure state plus the event-loop
context.  `windowTimer` / `relaunchTimer` hold the arming times of the
pending one-shot timers (the window timer stores its due time, the
relaunch timer the instant it was armed).  `terminated` is the exit
status once the supervisor process has exited.  `launches`, `relaunches`
and `delays` are observers: total spawns, spawns triggered through the
relaunch timer, and the delay argument of each `setTimeout` scheduling a
relaunch, in order. -/
structure Cfg where
  st : SupState
  now : ℤ
  windowTimer : Option ℤ
  relaunchTimer : Option ℤ
  terminated : Option ℕ
  launches : ℕ
  relaunches : ℕ
  delays : List ℚ
  log : List String
deriving DecidableEq

/-- Source lines 51-66 (`launch`): on the first launch of a window
(`startTime === null`) record the window start and arm the one-shot reset
timer for `max * 1000 + 1` ms; then increment `starts` and spawn the
child (modelled as `childLive := true`). -/
def launch (t : ℤ) (c : Cfg) : Cfg :=
  let c1 :=
    if c.st.startTime = none then
      { c with st := { c.st with startTime := some t },
               windowTimer := some (t + ((max : ℤ) * 1000 + 1)) }
    else c
  { c1 with st := { c1.st with starts := c1.st.starts + 1, childLive := true },
            launches := c1.launches + 1 }

/-- Source lines 55-58: the window-reset timer callback sets
`startTime = null` and `starts = 0`. -/
def windowTimerCb (c : Cfg) : Cfg :=
  { c with st := { c.st with startTime := none, starts := 0 },
           windowTimer := none }

/-- JS `attempts > options.maxRestarts && options.maxRestarts >= 0`; when
`maxRestarts` is `undefined` both comparisons are false. -/
def capExceeded (mr : Option ℤ) (attempts : ℕ) : Bool :=
  match mr with
  | some m => decide ((attempts : ℤ) > m) && decide (m ≥ 0)
  | none => false

/-- Source lines 29-40: the relaunch `setTimeout` callback.  It first
multiplies `wait` by `growPercentage` and increments `attempts`; if the
lifetime cap is exceeded it logs and calls `process.exit()` (status 0),
otherwise it calls `launch()`. -/
def relaunchTimerCb (o : Options) (t : ℤ) (c : Cfg) : Cfg :=
  let st1 := { c.st with wait := c.st.wait * o.growPercentage,
                         attempts := c.st.attempts + 1 }
  let c1 := { c with st := st1, relaunchTimer := none }
  if capExceeded o.maxRestarts st1.attempts then
    { c1 with terminated := some 0,
              log := c1.log ++
                [o.name ++ " will not be restarted because the maximum number of total restarts has been exceeded."] }
  else
    launch t { c1 with relaunches := c1.relaunches + 1 }

/-- Source lines 16-45 (`monitor`).  With `child.pid` absent: if
`starts >= maxRetries` and `Date.now() - max * 1000 - startTime > 0`
(JS coerces a null `startTime` to 0), log and `process.exit(1)`;
otherwise arm the relaunch timer with the current `wait`.  With
`child.pid` present: reset `attempts` to 0 and `wait` to
`restartDelay * 1000`. -/
def monitor (o : Options) (t : ℤ) (c : Cfg) : Cfg :=
  if c.st.childLive = false then
    if (c.st.starts : ℤ) ≥ o.maxRetries ∧
        t - (max : ℤ) * 1000 - (c.st.startTime.getD 0) > 0 then
      { c with terminated := some 1,
               log := c.log ++
                 ["Too many restarts within the last " ++ toString max ++ " seconds. Please check the script."] }
    else
      { c with relaunchTimer := some t, delays := c.delays ++ [c.st.wait] }
  else
    { c with st := { c.st with attempts := 0, wait := o.restartDelay * 1000 } }

/-- Source lines 77-87: the `child.on('exit', ...)` handler.  If the code
is non-zero and `exitOnError` is set, log and `process.exit()` — which,
called with no argument, exits with status 0.  Otherwise delete
`child.pid` and call `monitor()`. -/
def childExitHandler (o : Options) (code : ℤ) (t : ℤ) (c : Cfg) : Cfg :=
  if code ≠ 0 ∧ o.exitOnError = true then
    { c with terminated := some 0,
             log := c.log ++ [o.name ++ " exited with error code " ++ toString code] }
  else
    monitor o t { c with st := { c.st with childLive := false } }

/-- An event-loop event: the child exiting with a code at time `t`, the
relaunch timer firing at `t`, or the window-reset timer firing at `t`. -/
inductive Ev
  | childExit (code : ℤ) (t : ℤ)
  | relaunchFire (t : ℤ)
  | windowFire (t : ℤ)
deriving DecidableEq

/-- One event-loop step.  An event is admissible only if the supervisor
process is still alive, time does not flow backwards, the corresponding
timer is actually pending (and due, for the window timer), and — for a
child exit — a child is live.  Inadmissible events yield `none`. -/
def step (o : Options) (c : Cfg) : Ev → Option Cfg
  | .childExit code t =>
    if c.terminated = none ∧ c.st.childLive = true ∧ c.now ≤ t then
      some (childExitHandler o code t { c with now := t })
    else none
  | .relaunchFire t =>
    if c.terminated = none ∧ c.relaunchTimer.isSome = true ∧
        c.relaunchTimer.getD 0 ≤ t ∧ c.now ≤ t then
      some (relaunchTimerCb o t { c with now := t })
    else none
  | .windowFire t =>
    if c.terminated = none ∧ c.windowTimer.isSome = true ∧
        c.windowTimer.getD 0 ≤ t ∧ c.now ≤ t then
      some (windowTimerCb { c with now := t })
    else none

/-- Source lines 6-11: the initial closure state of `start`. -/
def initState : SupState :=
  { startTime := none, attempts := 0, starts := 0, childLive := false, wait := 1 }

/-- The configuration right after `start` runs: fresh state, then the
initial `launch()` at time `t0` (source line 112). -/
def initCfg (t0 : ℤ) : Cfg :=
  launch t0
    { st := initState, now := t0, windowTimer := none, relaunchTimer := none,
      terminated := none, launches := 0, relaunches := 0, delays := [], log := [] }

/-- Run the supervisor event loop over a list of events. -/
def run (o : Options) (c : Cfg) : List Ev → Option Cfg
  | [] => some c
  | e :: es => (step o c e).bind (fun c2 => run o c2 es)

/-! Helper lemmas about the individual handlers and the step function. -/

/-- Projections of `launch`: it touches only `starts`, `childLive`,
`startTime`, `windowTimer` and the launch counter. -/
theorem launch_fields (t : ℤ) (c : Cfg) :
    (launch t c).st.attempts = c.st.attempts ∧
    (launch t c).st.wait = c.st.wait ∧
    (launch t c).st.starts = c.st.starts + 1 ∧
    (launch t c).st.childLive = true ∧
    (launch t c).terminated = c.terminated ∧
    (launch t c).relaunchTimer = c.relaunchTimer ∧
    (launch t c).relaunches = c.relaunches ∧
    (launch t c).delays = c.delays ∧
    (launch t c).launches = c.launches + 1 ∧
    (launch t c).now = c.now := by
  unfold launch
  split <;> simp

/-- A successful `childExit` step decomposes into its admissibility guard
plus the handler applied at the event time. -/
theorem step_childExit_eq (o : Options) (c c' : Cfg) (code t : ℤ)
    (h : step o c (.childExit code t) = some c') :
    c.terminated = none ∧ c.st.childLive = true ∧ c.now ≤ t ∧
    c' = childExitHandler o code t { c with now := t } := by
  simp only [step] at h
  split at h
  · rename_i hg
    exact ⟨hg.1, hg.2.1, hg.2.2, (Option.some.inj h).symm⟩
  · cases h

/-- A successful `relaunchFire` step decomposes likewise. -/
theorem step_relaunchFire_eq (o : Options) (c c' : Cfg) (t : ℤ)
    (h : step o c (.relaunchFire t) = some c') :
    c.terminated = none ∧ c.relaunchTimer.isSome = true ∧ c.now ≤ t ∧
    c' = relaunchTimerCb o t { c with now := t } := by
  simp only [step] at h
  split at h
  · rename_i hg
    exact ⟨hg.1, hg.2.1, hg.2.2.2, (Option.some.inj h).symm⟩
  · cases h

/-- A successful `windowFire` step decomposes likewise. -/
theorem step_windowFire_eq (o : Options) (c c' : Cfg) (t : ℤ)
    (h : step o c (.windowFire t) = some c') :
    c.terminated = none ∧ c.windowTimer.isSome = true ∧ c.now ≤ t ∧
    c' = windowTimerCb { c with now := t } := by
  simp only [step] at h
  split at h
  · rename_i hg
    exact ⟨hg.1, hg.2.1, hg.2.2.2, (Option.some.inj h).symm⟩
  · cases h

/-- Once the supervisor process has exited, no further event is
admissible: a terminated configuration absorbs nothing. -/
theorem terminated_no_step (o : Options) (c : Cfg) (e : Ev)
    (h : c.terminated ≠ none) : step o c e = none := by
  cases e <;> simp [step, h]

/-! Claim C2 — `exitOnError` path. -/

/-- C2 (amended): with `exitOnError = true` and a non-zero exit code the
supervisor logs "name exited with error code code" and terminates
immediately, performing no further relaunch — but the termination is
`process.exit()` with no argument, so the exit status is 0, not the
non-zero status the claim states. -/
theorem C2_exit_on_error (o : Options) (c c' : Cfg) (code t : ℤ)
    (hstep : step o c (.childExit code t) = some c')
    (herr : o.exitOnError = true) (hcode : code ≠ 0) :
    c'.terminated = some 0 ∧
    (o.name ++ " exited with error code " ++ toString code) ∈ c'.log ∧
    c'.relaunches = c.relaunches ∧
    c'.launches = c.launches ∧
    (∀ e : Ev, step o c' e = none) := by
  obtain ⟨hterm, hlive, hnow, hc'⟩ := step_childExit_eq o c c' code t hstep
  subst hc'
  unfold childExitHandler
  rw [if_pos ⟨hcode, herr⟩]
  refine ⟨rfl, by simp, rfl, rfl, fun e => terminated_no_step o _ e (by simp)⟩

/-- Options used for the C2 counterexample and witness:
`exitOnError = true`, everything else as merged defaults would give. -/
def o2 : Options :=
  { name := "deepstream", exitOnError := true, growPercentage := 1/4,
    maxRetries := 10, maxRestarts := none, restartDelay := 1 }

/-- The configuration after the child of `o2` exits with code 2. -/
def c2w : Cfg := childExitHandler o2 2 10 { initCfg 0 with now := 10 }

/-- C2 witness: the amended theorem applied to the concrete run in which
the first child exits with code 2 at time 10. -/
theorem C2_exit_on_error_witness :
    c2w.terminated = some 0 ∧ c2w.relaunches = (initCfg 0).relaunches ∧
    c2w.launches = (initCfg 0).launches :=
  ⟨(C2_exit_on_error o2 (initCfg 0) c2w 2 10 (by decide) rfl (by decide)).1,
   (C2_exit_on_error o2 (initCfg 0) c2w 2 10 (by decide) rfl (by decide)).2.2.1,
   (C2_exit_on_error o2 (initCfg 0) c2w 2 10 (by decide) rfl (by decide)).2.2.2.1⟩

/-- C2 counterexample: with `exitOnError = true` and the child exiting
with code 2 the supervisor does log the fatal message and performs zero
relaunches, but its exit status is 0 — the source calls `process.exit()`
with no argument — refuting the claim that it terminates with a non-zero
exit status. -/
theorem C2_counterexample :
    (run o2 (initCfg 0) [Ev.childExit 2 10]).map
      (fun c => (c.terminated, c.relaunches, c.launches, c.log)) =
    some (some 0, 0, 1, ["deepstream exited with error code 2"]) := by decide

/-! Claim C1 — the restart-storm window guard. -/

/-- C1 (amended): on a child exit taking the restart path while
`starts ≥ maxRetries`, the supervisor exits fatally with status 1 only
when the exit is observed strictly more than `max * 1000` ms after the
window start (a slot left open because the reset timer only fires
`max * 1000 + 1` ms after it); a child exit observed within the window
instead arms the relaunch timer, so relaunching continues inside the
same window. -/
theorem C1_window_guard (o : Options) (c c' : Cfg) (code t : ℤ)
    (hstep : step o c (.childExit code t) = some c')
    (hnoerr : ¬(code ≠ 0 ∧ o.exitOnError = true))
    (hstorm : (c.st.starts : ℤ) ≥ o.maxRetries) :
    (t - (max : ℤ) * 1000 - c.st.startTime.getD 0 > 0 →
      c'.terminated = some 1 ∧ c'.launches = c.launches) ∧
    (t - (max : ℤ) * 1000 - c.st.startTime.getD 0 ≤ 0 →
      c'.terminated = none ∧ c'.relaunchTimer = some t ∧
      c'.st.starts = c.st.starts ∧ c'.st.startTime = c.st.startTime) := by
  obtain ⟨hterm, hlive, hnow, hc'⟩ := step_childExit_eq o c c' code t hstep
  subst hc'
  unfold childExitHandler
  rw [if_neg hnoerr]
  unfold monitor
  dsimp only
  constructor
  · intro htime
    rw [if_pos rfl, if_pos ⟨hstorm, htime⟩]
    exact ⟨rfl, rfl⟩
  · intro htime
    rw [if_pos rfl, if_neg ?hneg]
    · exact ⟨hterm, rfl, rfl, rfl⟩
    · intro hcon
      omega

/-- Options used for the C1 counterexample and witness:
`maxRetriesPerWindow` of 2 and a growth factor of 1. -/
def oC1 : Options :=
  { name := "deepstream", exitOnError := false, growPercentage := 1,
    maxRetries := 2, maxRestarts := none, restartDelay := 1 }

/-- A mid-window configuration whose `starts` already equals
`oC1.maxRetries`, with the child still running. -/
def cC1 : Cfg :=
  { st := { startTime := some 0, attempts := 1, starts := 2, childLive := true, wait := 1 },
    now := 11, windowTimer := some 6001, relaunchTimer := none, terminated := none,
    launches := 2, relaunches := 1, delays := [1], log := [] }

/-- The configuration after the child of `cC1` exits at time 20. -/
def cC1' : Cfg := childExitHandler oC1 0 20 { cC1 with now := 20 }

/-- C1 witness: the amended theorem applied to a concrete mid-window
child exit with the per-window cap already reached — the supervisor stays
alive and arms the relaunch timer. -/
theorem C1_window_guard_witness :
    cC1'.terminated = none ∧ cC1'.relaunchTimer = some 20 ∧
    cC1'.st.starts = cC1.st.starts ∧ cC1'.st.startTime = cC1.st.startTime :=
  (C1_window_guard oC1 cC1 cC1' 0 20 (by decide) (by decide) (by decide)).2 (by decide)

/-- C1 counterexample: under `oC1` the child exits immediately twice, so
`starts` reaches `maxRetries = 2` at time 20, well within `max * 1000 =
6000` ms of the window start 0 — yet the supervisor does not terminate:
it relaunches a third time at time 21, still inside the same window
(`startTime` is still 0), refuting the claim that reaching the per-window
cap within the window terminates the supervisor fatally. -/
theorem C1_counterexample :
    (run oC1 (initCfg 0) [Ev.childExit 0 10, Ev.relaunchFire 11, Ev.childExit 0 20,
        Ev.relaunchFire 21]).map
      (fun c => (c.terminated, c.launches, c.st.starts, c.st.startTime)) =
      some (none, 3, 3, some 0) ∧
    (run oC1 (initCfg 0) [Ev.childExit 0 10, Ev.relaunchFire 11, Ev.childExit 0 20]).map
      (fun c => (c.st.starts, c.now)) = some (2, 20) := by decide

/-! Claim C9 — the stability branch is dead on the child-exit path. -/

/-- C9: every `monitor()` invocation reached through the child's exit
handler observes `child.pid` already deleted, so the branch that resets
`attempts` to 0 and `wait` to `restartDelay * 1000` cannot run on that
path: a child-exit event never changes `attempts` or `wait`. -/
theorem C9_monitor_exit_path :
    (∀ (o : Options) (t : ℤ) (c : Cfg), c.st.childLive = false →
      (monitor o t c).st.attempts = c.st.attempts ∧
      (monitor o t c).st.wait = c.st.wait) ∧
    (∀ (o : Options) (c c' : Cfg) (code t : ℤ),
      step o c (.childExit code t) = some c' →
      c'.st.attempts = c.st.attempts ∧ c'.st.wait = c.st.wait) := by
  have hmon : ∀ (o : Options) (t : ℤ) (c : Cfg), c.st.childLive = false →
      (monitor o t c).st.attempts = c.st.attempts ∧
      (monitor o t c).st.wait = c.st.wait := by
    intro o t c h
    unfold monitor
    rw [if_pos h]
    split <;> exact ⟨rfl, rfl⟩
  refine ⟨hmon, fun o c c' code t hstep => ?_⟩
  obtain ⟨hterm, hlive, hnow, hc'⟩ := step_childExit_eq o c c' code t hstep
  subst hc'
  unfold childExitHandler
  split
  · exact ⟨rfl, rfl⟩
  · exact hmon o t _ rfl

/-- Options used for the C9 witness. -/
def oC9 : Options :=
  { name := "deepstream", exitOnError := false, growPercentage := 1/4,
    maxRetries := 10, maxRestarts := none, restartDelay := 1 }

/-- The configuration after the first child of `oC9` exits cleanly. -/
def cC9 : Cfg := childExitHandler oC9 0 5 { initCfg 0 with now := 5 }

/-- C9 witness: the theorem applied to the concrete first child exit —
`attempts` and `wait` are untouched by the exit event. -/
theorem C9_monitor_exit_path_witness :
    cC9.st.attempts = (initCfg 0).st.attempts ∧
    cC9.st.wait = (initCfg 0).st.wait :=
  C9_monitor_exit_path.2 oC9 (initCfg 0) cC9 0 5 (by decide)

/-! Claim C6 — arming and firing of the window-reset timer. -/

/-- C6: only a launch that finds `startTime` unset records the window
start and arms the one-shot reset timer, for `max * 1000 + 1` ms; a
launch inside an open window changes neither; `starts` is incremented on
every launch; and the timer callback clears `startTime` and zeroes
`starts` for every configuration, however many launches occurred. -/
theorem C6_window_timer (t : ℤ) (c : Cfg) :
    (c.st.startTime = none →
      (launch t c).st.startTime = some t ∧
      (launch t c).windowTimer = some (t + ((max : ℤ) * 1000 + 1))) ∧
    (∀ u : ℤ, c.st.startTime = some u →
      (launch t c).st.startTime = some u ∧
      (launch t c).windowTimer = c.windowTimer) ∧
    (launch t c).st.starts = c.st.starts + 1 ∧
    (windowTimerCb c).st.startTime = none ∧
    (windowTimerCb c).st.starts = 0 := by
  refine ⟨?_, ?_, (launch_fields t c).2.2.1, rfl, rfl⟩
  · intro h
    unfold launch
    rw [if_pos h]
    exact ⟨rfl, rfl⟩
  · intro u h
    unfold launch
    rw [if_neg (by simp [h])]
    exact ⟨h, rfl⟩

/-- A fresh pre-launch configuration used for the C6 witness. -/
def cC6 : Cfg :=
  { st := initState, now := 0, windowTimer := none, relaunchTimer := none,
    terminated := none, launches := 0, relaunches := 0, delays := [], log := [] }

/-- C6 witness: launching at time 0 with no open window records the
window start and arms the reset timer for 6001 ms. -/
theorem C6_window_timer_witness :
    (launch 0 cC6).st.startTime = some 0 ∧
    (launch 0 cC6).windowTimer = some (0 + ((max : ℤ) * 1000 + 1)) :=
  (C6_window_timer 0 cC6).1 rfl

/-! Claims C5 and C7 — signal handlers and the process-exit hook. -/

/-- An action issued by one of the supervisor's `process.on` handlers. -/
inductive SupAction
  | removeExitListeners
  | killChild
  | exitProcess (code : ℕ)
deriving DecidableEq

/-- Source lines 97-100: the SIGTERM handler runs
`child.removeAllListeners('exit')` then `child.kill()`. -/
def sigtermHandlerActions : List SupAction :=
  [SupAction.removeExitListeners, SupAction.killChild]

/-- Source lines 102-105: the SIGHUP handler, identical to SIGTERM's. -/
def sighupHandlerActions : List SupAction :=
  [SupAction.removeExitListeners, SupAction.killChild]

/-- Source lines 107-110: the SIGINT handler, identical to SIGTERM's. -/
def sigintHandlerActions : List SupAction :=
  [SupAction.removeExitListeners, SupAction.killChild]

/-- Source lines 90-95: the `process.on('exit')` hook removes the child's
exit listeners and, if a child object exists, kills it. -/
def processExitHandlerActions (childExists : Bool) : List SupAction :=
  [SupAction.removeExitListeners] ++ if childExists then [SupAction.killChild] else []

/-- Whether an action terminates the supervisor process. -/
def isExitAction : SupAction → Bool
  | .exitProcess _ => true
  | _ => false

/-- C5 counterexample: each of the three signal handlers removes the
child-exit listener and kills the child, but none contains any
`process.exit` action — having installed handlers, the supervisor has
replaced Node's default terminate-on-signal behaviour and does not
terminate itself once forwarding is issued, refuting the claim's last
step. -/
theorem C5_counterexample :
    sigtermHandlerActions.all (fun a => !isExitAction a) = true ∧
    sighupHandlerActions.all (fun a => !isExitAction a) = true ∧
    sigintHandlerActions.all (fun a => !isExitAction a) = true ∧
    SupAction.killChild ∈ sigtermHandlerActions := by decide

/-- C5 (amended): on an interrupt, terminate or hang-up signal the
supervisor removes the child-exit handler (so the coming child exit does
not trigger a relaunch) and then sends the kill to the live child — in
that order — but it does not terminate its own process as part of the
handler: no exit action is issued, and the supervisor survives until its
event loop drains. -/
theorem C5_signal_handlers :
    (SupAction.removeExitListeners ∈ sigtermHandlerActions ∧
     SupAction.killChild ∈ sigtermHandlerActions ∧
     sigtermHandlerActions.indexOf SupAction.removeExitListeners <
       sigtermHandlerActions.indexOf SupAction.killChild ∧
     sigtermHandlerActions.all (fun a => !isExitAction a) = true) ∧
    (SupAction.removeExitListeners ∈ sighupHandlerActions ∧
     SupAction.killChild ∈ sighupHandlerActions ∧
     sighupHandlerActions.indexOf SupAction.removeExitListeners <
       sighupHandlerActions.indexOf SupAction.killChild ∧
     sighupHandlerActions.all (fun a => !isExitAction a) = true) ∧
    (SupAction.removeExitListeners ∈ sigintHandlerActions ∧
     SupAction.killChild ∈ sigintHandlerActions ∧
     sigintHandlerActions.indexOf SupAction.removeExitListeners <
       sigintHandlerActions.indexOf SupAction.killChild ∧
     sigintHandlerActions.all (fun a => !isExitAction a) = true) := by decide

/-- C7: the `process.on('exit')` hook always begins by detaching the
child-exit handler, and when a child object exists the kill is issued
after the detach — so a relaunch cannot fire from the child's death
during supervisor shutdown. -/
theorem C7_exit_hook (b : Bool) :
    (processExitHandlerActions b).head? = some SupAction.removeExitListeners ∧
    (b = true → SupAction.killChild ∈ processExitHandlerActions b ∧
      (processExitHandlerActions b).indexOf SupAction.removeExitListeners <
        (processExitHandlerActions b).indexOf SupAction.killChild) ∧
    (processExitHandlerActions b).all (fun a => !isExitAction a) = true := by
  cases b <;> decide

/-- C7 witness: with a live child the hook both detaches first and kills
the child. -/
theorem C7_exit_hook_witness :
    SupAction.killChild ∈ processExitHandlerActions true ∧
    (processExitHandlerActions true).indexOf SupAction.removeExitListeners <
      (processExitHandlerActions true).indexOf SupAction.killChild :=
  (C7_exit_hook true).2.1 rfl

/-! Claim C10 — the exported entry point's option merging. -/

/-- A caller-supplied options object for `module.exports.start`; every
field may be absent.  The all-absent value plays the role of the `{}`
that a null `daemonOptions` is replaced with. -/
structure DaemonOptions where
  name : Option String := none
  exitOnError : Option Bool := none
  growPercentage : Option ℚ := none
  maxRetries : Option ℤ := none
  restartDelay : Option ℚ := none
  maxRestarts : Option ℤ := none
deriving DecidableEq

/-- Source lines 115-124: `module.exports.start` merges the caller's
options over the defaults with `Object.assign`, the caller's fields
winning; `maxRestarts` has no default and stays absent unless
supplied. -/
def moduleExportsStart (d : DaemonOptions) : Options :=
  { name := d.name.getD "deepstream",
    exitOnError := d.exitOnError.getD false,
    growPercentage := d.growPercentage.getD (1/4),
    maxRetries := d.maxRetries.getD 10,
    restartDelay := d.restartDelay.getD 1,
    maxRestarts := d.maxRestarts }

/-- C10: the exported `start` merges caller options over the defaults
name "deepstream", exitOnError false, growPercentage 0.25, maxRetries
10, restartDelay 1, caller values winning field-by-field; and under the
default growth factor 1/4 < 1 the relaunch delay is multiplied by a
factor below one each cycle, so the delay sequence `1 * (1/4)^k`
strictly decreases instead of backing off. -/
theorem C10_defaults_merge :
    (moduleExportsStart {} =
      { name := "deepstream", exitOnError := false, growPercentage := 1/4,
        maxRetries := 10, restartDelay := 1, maxRestarts := none }) ∧
    (∀ (d : DaemonOptions) (v : String), d.name = some v →
      (moduleExportsStart d).name = v) ∧
    (∀ (d : DaemonOptions) (v : Bool), d.exitOnError = some v →
      (moduleExportsStart d).exitOnError = v) ∧
    (∀ (d : DaemonOptions) (v : ℚ), d.growPercentage = some v →
      (moduleExportsStart d).growPercentage = v) ∧
    (∀ (d : DaemonOptions) (v : ℤ), d.maxRetries = some v →
      (moduleExportsStart d).maxRetries = v) ∧
    (∀ (d : DaemonOptions) (v : ℚ), d.restartDelay = some v →
      (moduleExportsStart d).restartDelay = v) ∧
    (∀ (d : DaemonOptions) (v : ℤ), d.maxRestarts = some v →
      (moduleExportsStart d).maxRestarts = some v) ∧
    (moduleExportsStart {}).growPercentage < 1 ∧
    (∀ w : ℚ, 0 < w → w * (moduleExportsStart {}).growPercentage < w) ∧
    (∀ k : ℕ, (1 : ℚ) * (moduleExportsStart {}).growPercentage ^ (k + 1) <
      1 * (moduleExportsStart {}).growPercentage ^ k) := by
  have hg : (moduleExportsStart {}).growPercentage = 1/4 := rfl
  refine ⟨rfl, ?_, ?_, ?_, ?_, ?_, ?_, by rw [hg]; norm_num, ?_, ?_⟩
  · intro d v h; simp [moduleExportsStart, h]
  · intro d v h; simp [moduleExportsStart, h]
  · intro d v h; simp [moduleExportsStart, h]
  · intro d v h; simp [moduleExportsStart, h]
  · intro d v h; simp [moduleExportsStart, h]
  · intro d v h; simp [moduleExportsStart, h]
  · intro w hw
    rw [hg]
    linarith
  · intro k
    rw [hg, one_mul, one_mul, pow_succ]
    exact mul_lt_of_lt_one_right (pow_pos (by norm_num) k) (by norm_num)

/-- A fully-specified caller options object for the C10 witness. -/
def dC10 : DaemonOptions :=
  { name := some "svc", exitOnError := some true, growPercentage := some 2,
    maxRetries := some 3, restartDelay := some 7, maxRestarts := some 4 }

/-- C10 witness: caller-supplied name and growth factor win over the
defaults. -/
theorem C10_defaults_merge_witness :
    (moduleExportsStart dC10).name = "svc" ∧
    (moduleExportsStart dC10).growPercentage = 2 :=
  ⟨C10_defaults_merge.2.1 dC10 "svc" rfl,
   C10_defaults_merge.2.2.2.1 dC10 2 rfl⟩

/-! Claim C4 — the lifetime restart cap. -/

/-- The lifetime-cap invariant: never more than `N` relaunches, and while
the supervisor is alive `attempts` counts exactly the relaunches
performed so far. -/
def InvCap (N : ℤ) (c : Cfg) : Prop :=
  (c.relaunches : ℤ) ≤ N ∧ (c.terminated = none → c.st.attempts = c.relaunches)

/-- Unfolding of the JS cap test for a present `maxRestarts`. -/
theorem capExceeded_some (m : ℤ) (a : ℕ) :
    capExceeded (some m) a = true ↔ m < (a : ℤ) ∧ 0 ≤ m := by
  simp [capExceeded]

/-- One event-loop step preserves the lifetime-cap invariant. -/
theorem invCap_step (o : Options) (N : ℤ) (hmr : o.maxRestarts = some N) (hN : 0 ≤ N)
    (c c' : Cfg) (e : Ev) (h : step o c e = some c')
    (hc : InvCap N c) : InvCap N c' := by
  obtain ⟨h1, h2⟩ := hc
  cases e with
  | childExit code t =>
    obtain ⟨hterm, hlive, hnow, hc'⟩ := step_childExit_eq o c c' code t h
    subst hc'
    unfold childExitHandler
    split
    · exact ⟨h1, fun hco => by cases hco⟩
    · unfold monitor
      dsimp only
      rw [if_pos rfl]
      split
      · exact ⟨h1, fun hco => by cases hco⟩
      · exact ⟨h1, fun _ => h2 hterm⟩
  | relaunchFire t =>
    obtain ⟨hterm, hrt, hnow, hc'⟩ := step_relaunchFire_eq o c c' t h
    subst hc'
    unfold relaunchTimerCb
    dsimp only
    rw [hmr]
    split
    · exact ⟨h1, fun hco => by cases hco⟩
    · rename_i hcap
      rw [capExceeded_some] at hcap
      have hatt : c.st.attempts = c.relaunches := h2 hterm
      have hle : ((c.st.attempts : ℤ) + 1) ≤ N := by
        push_cast at hcap
        exact le_of_not_lt fun hlt => hcap ⟨hlt, hN⟩
      obtain ⟨la, lw, ls, lc, lt, lr, lrel, ld, ll, ln⟩ := launch_fields t
        { c with now := t,
                 st := { c.st with wait := c.st.wait * o.growPercentage,
                                   attempts := c.st.attempts + 1 },
                 relaunchTimer := none, relaunches := c.relaunches + 1 }
      constructor
      · rw [lrel]
        dsimp only
        push_cast
        omega
      · intro _
        rw [la, lrel]
        dsimp only
        omega
  | windowFire t =>
    obtain ⟨hterm, hwt, hnow, hc'⟩ := step_windowFire_eq o c c' t h
    subst hc'
    exact ⟨h1, fun _ => h2 hterm⟩

/-- The lifetime-cap invariant is preserved along any run. -/
theorem run_invCap (o : Options) (N : ℤ) (hmr : o.maxRestarts = some N) (hN : 0 ≤ N)
    (evs : List Ev) :
    ∀ (c c' : Cfg), run o c evs = some c' → InvCap N c → InvCap N c' := by
  induction evs with
  | nil =>
    intro c c' h hc
    exact (Option.some.inj h) ▸ hc
  | cons e es ih =>
    intro c c' h hc
    simp only [run] at h
    cases hs : step o c e with
    | none => rw [hs, Option.none_bind] at h; exact Option.noConfusion h
    | some c2 =>
      rw [hs, Option.some_bind] at h
      exact ih c2 c' h (invCap_step o N hmr hN c c2 e hs hc)

/-- The initial configuration satisfies the lifetime-cap invariant. -/
theorem invCap_init (N : ℤ) (hN : 0 ≤ N) (t0 : ℤ) : InvCap N (initCfg t0) := by
  have h0 : (initCfg t0).relaunches = 0 := rfl
  constructor
  · rw [h0]
    exact_mod_cast hN
  · intro _
    rfl

/-- C4: with `maxRestarts = N ≥ 0` the supervisor performs at most `N`
relaunches over its whole lifetime, however fast the child exits each
time; the relaunch attempt that would exceed the cap instead logs that
the child will not be restarted and exits with the neutral status 0; and
with a negative `maxRestarts` the lifetime cap never stops a relaunch. -/
theorem C4_lifetime_cap :
    (∀ (o : Options) (N : ℤ), o.maxRestarts = some N → 0 ≤ N →
      ∀ (t0 : ℤ) (evs : List Ev) (c : Cfg),
        run o (initCfg t0) evs = some c → (c.relaunches : ℤ) ≤ N) ∧
    (∀ (o : Options) (N : ℤ) (c c' : Cfg) (t : ℤ), o.maxRestarts = some N →
      step o c (.relaunchFire t) = some c' → N < (c.st.attempts : ℤ) + 1 → 0 ≤ N →
      c'.terminated = some 0 ∧ c'.launches = c.launches ∧
      (o.name ++ " will not be restarted because the maximum number of total restarts has been exceeded.")
        ∈ c'.log) ∧
    (∀ (o : Options) (m : ℤ) (c c' : Cfg) (t : ℤ), o.maxRestarts = some m → m < 0 →
      step o c (.relaunchFire t) = some c' →
      c'.terminated = none ∧ c'.launches = c.launches + 1) := by
  refine ⟨?_, ?_, ?_⟩
  · intro o N hmr hN t0 evs c h
    exact (run_invCap o N hmr hN evs (initCfg t0) c h (invCap_init N hN t0)).1
  · intro o N c c' t hmr hstep hlt hN
    obtain ⟨hterm, hrt, hnow, hc'⟩ := step_relaunchFire_eq o c c' t hstep
    subst hc'
    unfold relaunchTimerCb
    dsimp only
    rw [hmr, if_pos (by rw [capExceeded_some]; push_cast; omega)]
    exact ⟨rfl, rfl, by simp⟩
  · intro o m c c' t hmr hm hstep
    obtain ⟨hterm, hrt, hnow, hc'⟩ := step_relaunchFire_eq o c c' t hstep
    subst hc'
    unfold relaunchTimerCb
    dsimp only
    rw [hmr, if_neg (by rw [capExceeded_some]; push_cast; omega)]
    obtain ⟨la, lw, ls, lc, lt, lr, lrel, ld, ll, ln⟩ := launch_fields t
      { c with now := t,
               st := { c.st with wait := c.st.wait * o.growPercentage,
                                 attempts := c.st.attempts + 1 },
               relaunchTimer := none, relaunches := c.relaunches + 1 }
    exact ⟨by rw [lt]; exact hterm, by rw [ll]⟩

/-- Options with a lifetime cap of zero for the C4 witness. -/
def oC4 : Options :=
  { name := "deepstream", exitOnError := false, growPercentage := 1/4,
    maxRetries := 10, maxRestarts := some 0, restartDelay := 1 }

/-- C4 witness: with `maxRestarts = 0`, after zero events zero relaunches
have occurred, within the cap. -/
theorem C4_lifetime_cap_witness : ((initCfg 0).relaunches : ℤ) ≤ 0 :=
  C4_lifetime_cap.1 oC4 0 rfl le_rfl 0 [] (initCfg 0) rfl

/-! Claim C3 — the backoff delay progression. -/

/-- The backoff invariant: the recorded relaunch delays are exactly
`growPercentage ^ k` in scheduling order (base: the literal initial
`wait = 1`); while the supervisor is alive, `wait` equals
`growPercentage ^ relaunches`, the relaunch timer is unarmed while the
child lives, and the number of recorded delays tracks the relaunch
count. -/
def DelayInv (o : Options) (c : Cfg) : Prop :=
  c.delays = (List.range c.delays.length).map (fun k => o.growPercentage ^ k) ∧
  (c.terminated = none →
    c.st.wait = o.growPercentage ^ c.relaunches ∧
    (c.st.childLive = true → c.relaunchTimer = none) ∧
    (c.relaunchTimer.isSome = true → c.delays.length = c.relaunches + 1) ∧
    (c.relaunchTimer = none → c.delays.length = c.relaunches))

/-- One event-loop step preserves the backoff invariant. -/
theorem delayInv_step (o : Options) (c c' : Cfg) (e : Ev)
    (h : step o c e = some c') (hc : DelayInv o c) : DelayInv o c' := by
  obtain ⟨hshape, hlive⟩ := hc
  cases e with
  | childExit code t =>
    obtain ⟨hterm, hchild, hnow, hc'⟩ := step_childExit_eq o c c' code t h
    obtain ⟨hwait, hcl, hsome, hnone⟩ := hlive hterm
    subst hc'
    unfold childExitHandler
    split
    · exact ⟨hshape, fun hco => by cases hco⟩
    · unfold monitor
      dsimp only
      rw [if_pos rfl]
      split

      · exact ⟨hshape, fun hco => by cases hco⟩
      · have hlen : c.delays.length = c.relaunches := hnone (hcl hchild)
        constructor
        · dsimp only
          rw [List.length_append, List.length_singleton, List.range_succ, List.map_append,
              List.map_singleton, ← hshape, hwait, hlen]
        · intro _
          refine ⟨hwait, ?_, ?_, ?_⟩
          · intro hco
            exact Bool.noConfusion hco
          · intro _
            dsimp only
            rw [List.length_append, List.length_singleton, hlen]
          · intro hco
            exact Option.noConfusion hco
  | relaunchFire t =>
    obtain ⟨hterm, hrt, hnow, hc'⟩ := step_relaunchFire_eq o c c' t h
    obtain ⟨hwait, hcl, hsome, hnone⟩ := hlive hterm
    have hlen : c.delays.length = c.relaunches + 1 := hsome hrt
    subst hc'
    unfold relaunchTimerCb
    dsimp only
    split
    · exact ⟨hshape, fun hco => by cases hco⟩
    · obtain ⟨la, lw, ls, lc, lt, lr, lrel, ld, ll, ln⟩ := launch_fields t
        { c with now := t,
                 st := { c.st with wait := c.st.wait * o.growPercentage,
                                   attempts := c.st.attempts + 1 },
                 relaunchTimer := none, relaunches := c.relaunches + 1 }
      constructor
      · rw [ld]
        dsimp only
        exact hshape
      · intro _
        refine ⟨?_, ?_, ?_, ?_⟩
        · rw [lw, lrel]
          dsimp only
          rw [hwait, ← pow_succ]
        · intro _
          rw [lr]
        · intro hco
          rw [lr] at hco
          exact Bool.noConfusion hco
        · intro _
          rw [ld, lrel]
          dsimp only
          exact hlen
  | windowFire t =>
    obtain ⟨hterm, hwt, hnow, hc'⟩ := step_windowFire_eq o c c' t h
    obtain ⟨hwait, hcl, hsome, hnone⟩ := hlive hterm
    subst hc'
    exact ⟨hshape, fun _ => ⟨hwait, hcl, hsome, hnone⟩⟩

/-- The backoff invariant is preserved along any run. -/
theorem run_delayInv (o : Options) (evs : List Ev) :
    ∀ (c c' : Cfg), run o c evs = some c' → DelayInv o c → DelayInv o c' := by
  induction evs with
  | nil =>
    intro c c' h hc
    exact (Option.some.inj h) ▸ hc
  | cons e es ih =>
    intro c c' h hc
    simp only [run] at h
    cases hs : step o c e with
    | none => rw [hs, Option.none_bind] at h; exact Option.noConfusion h
    | some c2 =>
      rw [hs, Option.some_bind] at h
      exact ih c2 c' h (delayInv_step o c c2 e hs hc)

/-- The initial configuration satisfies the backoff invariant. -/
theorem delayInv_init (o : Options) (t0 : ℤ) : DelayInv o (initCfg t0) := by
  constructor
  · rfl
  · intro _
    refine ⟨(pow_zero _).symm, fun _ => rfl, ?_, fun _ => rfl⟩
    intro hco
    exact Bool.noConfusion hco

/-- C3 (amended): the delay passed to `setTimeout` before the (k+1)-th
relaunch equals `1 * growPercentage ^ k` — the base of the geometric
sequence is the hardcoded initial `wait = 1` ms, not
`restartDelay * 1000`; and since the stability branch is unreachable
from the child-exit path, no reachable run ever restarts the sequence
from `restartDelay * 1000`. -/
theorem C3_delay_progression (o : Options) (t0 : ℤ) (evs : List Ev) (c : Cfg)
    (h : run o (initCfg t0) evs = some c) (k : ℕ) (hk : k < c.delays.length) :
    c.delays[k]? = some (1 * o.growPercentage ^ k) := by
  obtain ⟨hshape, _⟩ := run_delayInv o evs (initCfg t0) c h (delayInv_init o t0)
  rw [one_mul]
  conv_lhs => rw [hshape]
  rw [List.getElem?_map, List.getElem?_range hk]
  rfl

/-- Options with `restartDelay = 5` and growth factor 2 for the C3
counterexample and witness. -/
def oC3 : Options :=
  { name := "deepstream", exitOnError := false, growPercentage := 2,
    maxRetries := 10, maxRestarts := none, restartDelay := 5 }

/-- The configuration after the first child under `oC3` exits at time
10: the first relaunch has just been scheduled. -/
def cC3 : Cfg := childExitHandler oC3 0 10 { initCfg 0 with now := 10 }

/-- C3 counterexample: with `restartDelay = 5` — so `restartDelayMs` is
5000 (or 5 under the most charitable reading) — the delay scheduled
before the first relaunch is the literal 1, the hardcoded initial
`wait`, not `restartDelayMs × growthFactor ^ 0`, refuting the claimed
base of the delay sequence. -/
theorem C3_counterexample :
    (run oC3 (initCfg 0) [Ev.childExit 0 10]).map Cfg.delays = some [1] ∧
    (1 : ℚ) ≠ 5 ∧ (1 : ℚ) ≠ 5000 := by decide

/-- C3 witness: the amended theorem applied to the concrete run in which
the first child exits at time 10 — the first scheduled delay is
`1 * 2 ^ 0`. -/
theorem C3_delay_progression_witness :
    cC3.delays[0]? = some (1 * oC3.growPercentage ^ 0) :=
  C3_delay_progression oC3 0 [Ev.childExit 0 10] cC3 (by decide) 0 (by decide)

/-! Claim C8 — byte forwarding through `data.toString()`. -/

/-- Whether a byte is a UTF-8 continuation byte (0x80-0xBF). -/
def contB (b : ℕ) : Bool := decide (0x80 ≤ b) && decide (b ≤ 0xBF)

/-- Allowed second byte after a three-byte lead: E0 excludes overlong
encodings, ED excludes surrogates. -/
def second3B (b b2 : ℕ) : Bool :=
  if b = 0xE0 then decide (0xA0 ≤ b2) && decide (b2 ≤ 0xBF)
  else if b = 0xED then decide (0x80 ≤ b2) && decide (b2 ≤ 0x9F)
  else contB b2

/-- Allowed second byte after a four-byte lead: F0 excludes overlong
encodings, F4 caps the result at U+10FFFF. -/
def second4B (b b2 : ℕ) : Bool :=
  if b = 0xF0 then decide (0x90 ≤ b2) && decide (b2 ≤ 0xBF)
  else if b = 0xF4 then decide (0x80 ≤ b2) && decide (b2 ≤ 0x8F)
  else contB b2

/-- UTF-8 decoding with U+FFFD replacement — the semantics of
`Buffer.prototype.toString('utf8')` applied to a data chunk: scalar
values of well-formed sequences are decoded; a malformed byte run yields
a replacement character and decoding resumes after the malformed
prefix. -/
def utf8DecodeRepl : List ℕ → List ℕ
  | [] => []
  | b :: rest =>
    if b < 0x80 then b :: utf8DecodeRepl rest
    else if 0xC2 ≤ b ∧ b ≤ 0xDF then
      match hr2 : rest with
      | [] => [0xFFFD]
      | b2 :: rest2 =>
        if contB b2 then
          ((b - 0xC0) * 0x40 + (b2 - 0x80)) :: utf8DecodeRepl rest2
        else 0xFFFD :: utf8DecodeRepl rest
    else if 0xE0 ≤ b ∧ b ≤ 0xEF then
      match hr2 : rest with
      | [] => [0xFFFD]
      | b2 :: rest2 =>
        if second3B b b2 then
          match hr3 : rest2 with
          | [] => [0xFFFD]
          | b3 :: rest3 =>
            if contB b3 then
              ((b - 0xE0) * 0x1000 + (b2 - 0x80) * 0x40 + (b3 - 0x80)) :: utf8DecodeRepl rest3
            else 0xFFFD :: utf8DecodeRepl rest2
        else 0xFFFD :: utf8DecodeRepl rest
    else if 0xF0 ≤ b ∧ b ≤ 0xF4 then
      match hr2 : rest with
      | [] => [0xFFFD]
      | b2 :: rest2 =>
        if second4B b b2 then
          match hr3 : rest2 with
          | [] => [0xFFFD]
          | b3 :: rest3 =>
            if contB b3 then
              match hr4 : rest3 with
              | [] => [0xFFFD]
              | b4 :: rest4 =>
                if contB b4 then
                  ((b - 0xF0) * 0x40000 + (b2 - 0x80) * 0x1000 + (b3 - 0x80) * 0x40 + (b4 - 0x80))
                    :: utf8DecodeRepl rest4
                else 0xFFFD :: utf8DecodeRepl rest3
            else 0xFFFD :: utf8DecodeRepl rest2
        else 0xFFFD :: utf8DecodeRepl rest
    else 0xFFFD :: utf8DecodeRepl rest
termination_by l => l.length
decreasing_by all_goals (subst_vars; simp; try omega)

/-- Standard UTF-8 encoding of a scalar value, the behaviour of
`process.stdout.write` on a JS string. -/
def utf8EncodeChar (c : ℕ) : List ℕ :=
  if c < 0x80 then [c]
  else if c < 0x800 then [0xC0 + c / 0x40, 0x80 + c % 0x40]
  else if c < 0x10000 then
    [0xE0 + c / 0x1000, 0x80 + c / 0x40 % 0x40, 0x80 + c % 0x40]
  else
    [0xF0 + c / 0x40000, 0x80 + c / 0x1000 % 0x40, 0x80 + c / 0x40 % 0x40, 0x80 + c % 0x40]

/-- A Unicode scalar value: below 0x110000 and not a surrogate. -/
def ScalarValue (c : ℕ) : Prop := c < 0x110000 ∧ ¬(0xD800 ≤ c ∧ c ≤ 0xDFFF)

/-- Byte lists that are well-formed UTF-8: concatenations of encodings
of scalar values. -/
inductive ValidUtf8 : List ℕ → Prop
  | nil : ValidUtf8 []
  | cons (c : ℕ) (rest : List ℕ) (h : ScalarValue c) (hr : ValidUtf8 rest) :
      ValidUtf8 (utf8EncodeChar c ++ rest)

/-- Source lines 68-74: the stdout/stderr data handlers run
`process.stdout.write(data.toString())` — each chunk is UTF-8 decoded
with replacement by `toString` and UTF-8 encoded again on write. -/
def forwardChunk (bs : List ℕ) : List ℕ :=
  (utf8DecodeRepl bs).flatMap utf8EncodeChar

set_option maxRecDepth 4096 in
/-- Decoding a well-formed head sequence recovers its scalar value and
continues with the tail. -/
theorem utf8DecodeRepl_encode (c : ℕ) (h : ScalarValue c) (rest : List ℕ) :
    utf8DecodeRepl (utf8EncodeChar c ++ rest) = c :: utf8DecodeRepl rest := by
  obtain ⟨hlt, hsur⟩ := h
  by_cases h1 : c < 0x80
  · have e1 : utf8EncodeChar c = [c] := by
      unfold utf8EncodeChar
      rw [if_pos h1]
    rw [e1, List.singleton_append, utf8DecodeRepl.eq_def]
    dsimp only
    rw [if_pos h1]
  · by_cases h2 : c < 0x800
    · have e1 : utf8EncodeChar c = [0xC0 + c / 0x40, 0x80 + c % 0x40] := by
        unfold utf8EncodeChar
        rw [if_neg h1, if_pos h2]
      rw [e1, List.cons_append, List.singleton_append, utf8DecodeRepl.eq_def]
      dsimp only
      rw [if_neg (by omega), if_pos (show 0xC2 ≤ 0xC0 + c / 0x40 ∧ 0xC0 + c / 0x40 ≤ 0xDF by
        constructor <;> omega)]
      rw [if_pos (show contB (0x80 + c % 0x40) = true by
        simp only [contB, Bool.and_eq_true, decide_eq_true_eq]
        omega)]
      congr 1
      omega
    · by_cases h3 : c < 0x10000
      · have e1 : utf8EncodeChar c =
            [0xE0 + c / 0x1000, 0x80 + c / 0x40 % 0x40, 0x80 + c % 0x40] := by
          unfold utf8EncodeChar
          rw [if_neg h1, if_neg h2, if_pos h3]
        have hsecond : second3B (0xE0 + c / 0x1000) (0x80 + c / 0x40 % 0x40) = true := by
          unfold second3B
          split_ifs with hE0 hED
          · simp only [Bool.and_eq_true, decide_eq_true_eq]
            omega
          · simp only [Bool.and_eq_true, decide_eq_true_eq]
            omega
          · simp only [contB, Bool.and_eq_true, decide_eq_true_eq]
            omega
        rw [e1, List.cons_append, List.cons_append, List.singleton_append,
            utf8DecodeRepl.eq_def]
        dsimp only
        rw [if_neg (by omega), if_neg (by omega),
            if_pos (show 0xE0 ≤ 0xE0 + c / 0x1000 ∧ 0xE0 + c / 0x1000 ≤ 0xEF by
              constructor <;> omega)]
        rw [if_pos hsecond]
        rw [if_pos (show contB (0x80 + c % 0x40) = true by
          simp only [contB, Bool.and_eq_true, decide_eq_true_eq]
          omega)]
        congr 1
        omega
      · have e1 : utf8EncodeChar c =
            [0xF0 + c / 0x40000, 0x80 + c / 0x1000 % 0x40, 0x80 + c / 0x40 % 0x40,
             0x80 + c % 0x40] := by
          unfold utf8EncodeChar
          rw [if_neg h1, if_neg h2, if_neg h3]
        have hsecond : second4B (0xF0 + c / 0x40000) (0x80 + c / 0x1000 % 0x40) = true := by
          unfold second4B
          split_ifs with hF0 hF4
          · simp only [Bool.and_eq_true, decide_eq_true_eq]
            omega
          · simp only [Bool.and_eq_true, decide_eq_true_eq]
            omega
          · simp only [contB, Bool.and_eq_true, decide_eq_true_eq]
            omega
        rw [e1, List.cons_append, List.cons_append, List.cons_append, List.singleton_append,
            utf8DecodeRepl.eq_def]
        dsimp only
        rw [if_neg (by omega), if_neg (by omega), if_neg (by omega),
            if_pos (show 0xF0 ≤ 0xF0 + c / 0x40000 ∧ 0xF0 + c / 0x40000 ≤ 0xF4 by
              constructor <;> omega)]
        rw [if_pos hsecond]
        rw [if_pos (show contB (0x80 + c / 0x40 % 0x40) = true by
          simp only [contB, Bool.and_eq_true, decide_eq_true_eq]
          omega)]
        rw [if_pos (show contB (0x80 + c % 0x40) = true by
          simp only [contB, Bool.and_eq_true, decide_eq_true_eq]
          omega)]
        congr 1
        omega

/-- A well-formed chunk survives the forwarding round-trip
byte-for-byte. -/
theorem forwardChunk_valid (bs : List ℕ) (h : ValidUtf8 bs) : forwardChunk bs = bs := by
  induction h with
  | nil =>
    unfold forwardChunk
    rw [utf8DecodeRepl.eq_def]
    rfl
  | cons c rest hc hr ih =>
    unfold forwardChunk
    rw [utf8DecodeRepl_encode c hc rest, List.flatMap_cons]
    unfold forwardChunk at ih
    rw [ih]

/-- A single ASCII byte is a well-formed chunk. -/
theorem validUtf8_singleton (b : ℕ) (h : b < 0x80) : ValidUtf8 [b] := by
  have hv := ValidUtf8.cons b [] ⟨by omega, by omega⟩ ValidUtf8.nil
  rwa [show utf8EncodeChar b = [b] from by unfold utf8EncodeChar; rw [if_pos h],
       List.append_nil] at hv

/-- A single ASCII byte is forwarded unchanged. -/
theorem forwardChunk_ascii (b : ℕ) (h : b < 0x80) : forwardChunk [b] = [b] :=
  forwardChunk_valid [b] (validUtf8_singleton b h)

/-- A stdout data event: the child instance launched as generation
`gen` emitted `chunk` on its standard output. -/
structure DataEv where
  gen : ℕ
  chunk : List ℕ
deriving DecidableEq

/-- The stdout wiring across relaunches.  `attached` lists the
generations whose `'data'` listener is installed — `launch` (source
lines 68-74) attaches the handler to the freshly spawned child's stream
and nothing in the source ever detaches the previous child's stream
listeners (the signal and exit hooks only touch the `'exit'` listeners
of the child object).  `out` is the byte sequence written to the
supervisor's stdout so far. -/
structure StdoutSt where
  attached : List ℕ
  out : List ℕ
deriving DecidableEq

/-- The stream side of `launch` for generation `g`: attach the new
child's data listener; the previous generations' listeners remain. -/
def attachListener (g : ℕ) (s : StdoutSt) : StdoutSt :=
  { s with attached := s.attached ++ [g] }

/-- A data event is forwarded — `process.stdout.write(data.toString())`
— whenever the emitting generation's listener is attached, whether or
not that child is still the live one. -/
def dataStep (s : StdoutSt) (e : DataEv) : StdoutSt :=
  if e.gen ∈ s.attached then { s with out := s.out ++ forwardChunk e.chunk } else s

/-- Run the stdout wiring over a sequence of data events. -/
def runStdout (s : StdoutSt) : List DataEv → StdoutSt
  | [] => s
  | e :: es => runStdout (dataStep s e) es

/-- Chunks of one attached generation, all well-formed, are forwarded
byte-for-byte in arrival order. -/
theorem runStdout_same_gen (g : ℕ) :
    ∀ (chunks : List (List ℕ)) (s : StdoutSt), g ∈ s.attached →
      (∀ bs ∈ chunks, ValidUtf8 bs) →
      (runStdout s (chunks.map (fun bs => { gen := g, chunk := bs }))).out
        = s.out ++ chunks.flatten := by
  intro chunks
  induction chunks with
  | nil =>
    intro s hg hv
    simp [runStdout]
  | cons bs chunks ih =>
    intro s hg hv
    simp only [List.map_cons, runStdout]
    have hstep : dataStep s { gen := g, chunk := bs } =
        { s with out := s.out ++ forwardChunk bs } := by
      unfold dataStep
      rw [if_pos (show ({ gen := g, chunk := bs } : DataEv).gen ∈ s.attached from hg)]
    rw [hstep]
    rw [ih { attached := s.attached, out := s.out ++ forwardChunk bs } hg
        (fun b hb => hv b (List.mem_cons_of_mem _ hb))]
    rw [forwardChunk_valid bs (hv bs (List.mem_cons_self _ _))]
    rw [List.flatten_cons, List.append_assoc]

/-- C8 (amended): data chunks of the current child are forwarded in
arrival order, each as the UTF-8 re-encoding of its
decode-with-replacement, so a stream of well-formed UTF-8 chunks is
reproduced byte-for-byte and in the order produced — but arbitrary byte
sequences are transformed rather than copied, and the no-interleaving
guarantee fails: relaunching attaches the new child's data listener
without detaching any previous generation's, and a chunk from a
previous child instance is still forwarded after the relaunch. -/
theorem C8_stream_forwarding :
    (∀ bs : List ℕ, ValidUtf8 bs → forwardChunk bs = bs) ∧
    (∀ (g : ℕ) (chunks : List (List ℕ)) (s : StdoutSt), g ∈ s.attached →
      (∀ bs ∈ chunks, ValidUtf8 bs) →
      (runStdout s (chunks.map (fun bs => { gen := g, chunk := bs }))).out
        = s.out ++ chunks.flatten) ∧
    (∀ (g g' : ℕ) (s : StdoutSt), g' ∈ s.attached → g' ∈ (attachListener g s).attached) ∧
    (∀ (s : StdoutSt) (e : DataEv), e.gen ∈ s.attached →
      (dataStep s e).out = s.out ++ forwardChunk e.chunk) := by
  refine ⟨forwardChunk_valid, fun g chunks s hg hv => runStdout_same_gen g chunks s hg hv,
    ?_, ?_⟩
  · intro g g' s hg'
    unfold attachListener
    exact List.mem_append_left _ hg'
  · intro s e hg
    unfold dataStep
    rw [if_pos hg]

/-- C8 counterexample, refuting both failing parts of the claim.
First, forwarding is not byte-identical: the single byte 0xFF is
forwarded as the three replacement-character bytes EF BF BD.  Second,
interleaving from a previous child instance is not prevented: child
generation 0 writes 0x41 and exits, the relaunch spawns generation 1
whose listener is attached while generation 0's is never detached
(`attached = [0, 1]`), generation 1 writes 0x42, and a late chunk 0x43
from generation 0's still-open stream (Node's `'exit'` can fire before
the stdio streams flush) is forwarded after it — the supervisor's
stdout reads 41 42 43 with the old child's byte landing after the new
child's. -/
theorem C8_counterexample :
    (forwardChunk [0xFF] = [0xEF, 0xBF, 0xBD] ∧ forwardChunk [0xFF] ≠ [0xFF]) ∧
    ((attachListener 1 (runStdout (attachListener 0 { attached := [], out := [] })
        [{ gen := 0, chunk := [0x41] }])).attached = [0, 1] ∧
     (runStdout (attachListener 1 (runStdout (attachListener 0 { attached := [], out := [] })
        [{ gen := 0, chunk := [0x41] }]))
        [{ gen := 1, chunk := [0x42] }, { gen := 0, chunk := [0x43] }]).out
       = [0x41, 0x42, 0x43]) := by
  have hdec : utf8DecodeRepl [0xFF] = [0xFFFD] := by
    rw [utf8DecodeRepl.eq_def]
    norm_num
    rw [utf8DecodeRepl.eq_def]
  have henc : forwardChunk [0xFF] = [0xEF, 0xBF, 0xBD] := by
    unfold forwardChunk
    rw [hdec, List.flatMap_cons]
    norm_num [utf8EncodeChar]
  refine ⟨⟨henc, by rw [henc]; simp⟩, ?_, ?_⟩
  · rfl
  · simp only [runStdout, dataStep, attachListener]
    norm_num
    rw [forwardChunk_ascii 0x41 (by norm_num), forwardChunk_ascii 0x42 (by norm_num),
        forwardChunk_ascii 0x43 (by norm_num)]
    rfl

/-- C8 witness: the amended theorem applied to generation 0's stream
delivering the well-formed chunks "h" and "i" in order. -/
theorem C8_stream_forwarding_witness :
    (runStdout { attached := [0], out := [] }
      ([[0x68], [0x69]].map (fun bs => { gen := 0, chunk := bs }))).out
      = [] ++ [[0x68], [0x69]].flatten :=
  C8_stream_forwarding.2.1 0 [[0x68], [0x69]] { attached := [0], out := [] }
    (by simp)
    (by
      intro bs hbs
      simp only [List.mem_cons, List.not_mem_nil, or_false] at hbs
      rcases hbs with rfl | rfl
      · exact validUtf8_singleton 0x68 (by norm_num)
      · exact validUtf8_singleton 0x69 (by norm_num))

end DeepstreamService
